import Mathlib

/-!
Verification of the subtitle-generation pipeline (`src/subtitle_generator`).

Shallow embedding conventions:
* Python `float` seconds are embedded as exact rationals `ℚ`; at every input
  evaluated below the double-precision computation and the rational one agree.
* Python dict segments `{"start","end","text","speaker"}` become the `Segment`
  structure (`stop` embeds the key `"end"`, a Lean keyword).
* External calls (LLM chat, translation services) are embedded as oracle
  functions; `none` models a raised exception, `some s` a returned string.
  The bundled `chat_llm` catches its own errors and returns `""` on failure,
  so LLM oracles are `String`-valued where the caller never sees a raise.
* `str.lower()` is embedded as an ASCII character map and `str.strip()` as
  dropping leading/trailing whitespace characters (space, tab, CR, LF); at
  every string evaluated below these agree with Python.
-/

/-- A transcript segment: `start`/`stop` are the `"start"`/`"end"` seconds,
`text` the transcript text, `speaker` the optional speaker label
(source: `utils.py`, dataclass `Segment`). -/
structure Segment where
  start : ℚ
  stop : ℚ
  text : String
  speaker : String
deriving DecidableEq, Repr

/-- Embeds Python `str.lower()` (ASCII model). -/
def py_lower (s : String) : String := ⟨s.data.map Char.toLower⟩

/-- Embeds Python `str.strip()` (whitespace model: space, tab, CR, LF):
drops leading and trailing whitespace characters. -/
def py_strip (s : String) : String :=
  ⟨((s.data.dropWhile Char.isWhitespace).reverse.dropWhile Char.isWhitespace).reverse⟩

/-- `list_has_sub pat l` decides whether `pat` occurs contiguously in `l`;
embeds Python's `pat in s` substring test. -/
def list_has_sub (pat : List Char) : List Char → Bool
  | [] => pat.isEmpty
  | c :: rest => pat.isPrefixOf (c :: rest) || list_has_sub pat rest

/-- Embeds Python `pat in s` for strings. -/
def contains_sub (s pat : String) : Bool := list_has_sub pat.data s.data

/-- Embeds Python `int(q)`: truncation toward zero. -/
def py_trunc (q : ℚ) : ℤ := if 0 ≤ q then ⌊q⌋ else ⌈q⌉

/-- Embeds Python `round(q)` for a real argument: round half to even. -/
def py_round (q : ℚ) : ℤ :=
  let f := ⌊q⌋
  let r := q - (f : ℚ)
  if r < 1 / 2 then f
  else if 1 / 2 < r then f + 1
  else if f % 2 = 0 then f else f + 1

/-- Embeds the f-string field `{n:02d}` for the non-negative components
produced by the timestamp formatters. -/
def pad2 (n : ℤ) : String := if n < 10 then "0" ++ toString n else toString n

/-- Embeds the f-string field `{n:03d}` for the non-negative components
produced by the timestamp formatters; note the width is a minimum, a value
of 1000 or more prints with all its digits. -/
def pad3 (n : ℤ) : String :=
  if n < 10 then "00" ++ toString n
  else if n < 100 then "0" ++ toString n
  else toString n

/-- Embeds `subtitles.format_timestamp`: seconds to the SRT string
`HH:MM:SS,mmm`, the millisecond field rounded.  Python `//` and `%` are
floor division and floor-signed modulus, embedded as `Int.fdiv`/`Int.fmod`. -/
def format_timestamp (seconds : ℚ) : String :=
  let total_seconds := py_trunc seconds
  let millis := py_round ((seconds - (total_seconds : ℚ)) * 1000)
  let hours := total_seconds.fdiv 3600
  let minutes := (total_seconds.fmod 3600).fdiv 60
  let secs := total_seconds.fmod 60
  pad2 hours ++ ":" ++ pad2 minutes ++ ":" ++ pad2 secs ++ "," ++ pad3 millis

/-- Embeds `subtitles.format_ass_timestamp`: seconds to the ASS string
`H:MM:SS.cc`, the centisecond field truncated (`int(...)`), hours unpadded. -/
def format_ass_timestamp (seconds : ℚ) : String :=
  let total_seconds := py_trunc seconds
  let hours := total_seconds.fdiv 3600
  let minutes := (total_seconds.fmod 3600).fdiv 60
  let secs := total_seconds.fmod 60
  let centiseconds := py_trunc ((seconds - (total_seconds : ℚ)) * 100)
  toString hours ++ ":" ++ pad2 minutes ++ ":" ++ pad2 secs ++ "." ++ pad2 centiseconds

/-- Embeds the loop body of `subtitles.group_overlapping_segments`:
`curr` is the current group (in append order), `currEnd` the running
maximal end time. -/
def group_loop : List Segment → List Segment → ℚ → List (List Segment)
  | [], curr, _ => if curr = [] then [] else [curr]
  | seg :: rest, curr, currEnd =>
    if curr = [] then group_loop rest [seg] seg.stop
    else if seg.start < currEnd then
      group_loop rest (curr ++ [seg]) (max currEnd seg.stop)
    else
      curr :: group_loop rest [seg] seg.stop

/-- Embeds `subtitles.group_overlapping_segments`. -/
def group_overlapping_segments (segments : List Segment) : List (List Segment) :=
  group_loop segments [] 0

/-- Embeds the verdict computed by `segmentation.should_merge` from the
`chat_llm` outcome: `none` models an exception raised inside the `try`
block (caught, returning `False`); `some a` the returned answer, on which
the source tests `answer and ("not" in answer.lower() or "不" in answer)`.
An empty answer is falsy, so the test is skipped and `True` is returned. -/
def should_merge (answer : Option String) : Bool :=
  match answer with
  | none => false
  | some a =>
    if a = "" then true
    else if contains_sub (py_lower a) "not" || contains_sub a "不" then false
    else true

/-- Embeds the merged segment built in `segmentation.llm_merge_segments`:
`seg1.copy()` with `text = seg1["text"].strip() + " " + seg2["text"].strip()`
and `end = seg2["end"]`. -/
def merged_seg (s1 s2 : Segment) : Segment :=
  { s1 with text := py_strip s1.text ++ " " ++ py_strip s2.text, stop := s2.stop }

/-- Embeds the `while i < len(segments) - 1` loop of
`segmentation.llm_merge_segments`.  `verdict` is the oracle for the
`should_merge` call on a pair.  The already-scanned prefix (`segments[:i]`)
is emitted into the result and recursion continues on the cursor's suffix;
a merge re-examines the merged head against the rest, so the cursor does
not advance.  `fuel` bounds the iteration count; the wrapper passes the
list length, which every reachable call preserves as an upper bound on the
suffix length, so the fuel-exhaustion arm is never taken. -/
def merge_loop (verdict : Segment → Segment → Bool) :
    ℕ → List Segment → List Segment
  | _, [] => []
  | _, [s] => [s]
  | 0, s1 :: s2 :: rest => s1 :: s2 :: rest
  | fuel + 1, s1 :: s2 :: rest =>
    if py_strip s1.text = "" ∨ py_strip s2.text = "" then
      s1 :: merge_loop verdict fuel (s2 :: rest)
    else if 4 < s2.stop - s1.start then
      s1 :: merge_loop verdict fuel (s2 :: rest)
    else if verdict s1 s2 then
      merge_loop verdict fuel (merged_seg s1 s2 :: rest)
    else
      s1 :: merge_loop verdict fuel (s2 :: rest)

/-- Embeds `segmentation.llm_merge_segments` (with the per-pair verdict
oracle abstracting the LLM round trip). -/
def llm_merge_segments (verdict : Segment → Segment → Bool)
    (segments : List Segment) : List Segment :=
  merge_loop verdict segments.length segments

/-- C7 and C9 concrete inputs as exact rationals. -/
def q125_4567 : ℚ := 1254567 / 10000

def q0_9996 : ℚ := 9996 / 10000

lemma py_trunc_of_nonneg (q : ℚ) (h : 0 ≤ q) : py_trunc q = ⌊q⌋ := by
  simp only [py_trunc, if_pos h]

lemma py_round_up (q : ℚ) (f : ℤ) (hf : ⌊q⌋ = f) (h : 1 / 2 < q - (f : ℚ)) :
    py_round q = f + 1 := by
  simp only [py_round, hf]
  rw [if_neg (by linarith), if_pos h]

/-- C7: SRT formatting rounds the millisecond field while ASS formatting
truncates the centisecond field: `125.4567` seconds formats as
`"00:02:05,457"` in SRT and `"0:02:05.45"` in ASS. -/
theorem timestamp_rounding_asymmetry :
    format_timestamp q125_4567 = "00:02:05,457" ∧
    format_ass_timestamp q125_4567 = "0:02:05.45" := by
  have ht : py_trunc q125_4567 = 125 := by
    rw [py_trunc_of_nonneg _ (by norm_num [q125_4567])]
    norm_num [q125_4567]
  have hm : py_round ((q125_4567 - ((125 : ℤ) : ℚ)) * 1000) = 457 := by
    rw [py_round_up _ 456 (by norm_num [q125_4567]) (by norm_num [q125_4567])]
    norm_num
  have hc : py_trunc ((q125_4567 - ((125 : ℤ) : ℚ)) * 100) = 45 := by
    rw [py_trunc_of_nonneg _ (by norm_num [q125_4567])]
    norm_num [q125_4567]
  constructor
  · simp only [format_timestamp, ht, hm]
    decide
  · simp only [format_ass_timestamp, ht, hc]
    decide

/-- C9: there is a non-negative seconds value (`0.9996`) whose rounded
millisecond component reaches 1000, and the SRT formatter prints the
four-digit field without carrying into the seconds: `"00:00:00,1000"`. -/
theorem srt_millis_overflow :
    0 ≤ q0_9996 ∧ format_timestamp q0_9996 = "00:00:00,1000" := by
  have ht : py_trunc q0_9996 = 0 := by
    rw [py_trunc_of_nonneg _ (by norm_num [q0_9996])]
    norm_num [q0_9996]
  have hm : py_round ((q0_9996 - ((0 : ℤ) : ℚ)) * 1000) = 1000 := by
    rw [py_round_up _ 999 (by norm_num [q0_9996]) (by norm_num [q0_9996])]
    norm_num
  refine ⟨by norm_num [q0_9996], ?_⟩
  simp only [format_timestamp, ht, hm]
  decide

/-! ### Merge loop step lemmas -/

lemma merge_loop_merge (verdict : Segment → Segment → Bool) (fuel : ℕ)
    (s1 s2 : Segment) (rest : List Segment)
    (h1 : ¬(py_strip s1.text = "" ∨ py_strip s2.text = ""))
    (h2 : ¬(4 < s2.stop - s1.start)) (h3 : verdict s1 s2 = true) :
    merge_loop verdict (fuel + 1) (s1 :: s2 :: rest) =
      merge_loop verdict fuel (merged_seg s1 s2 :: rest) := by
  simp only [merge_loop]
  rw [if_neg h1, if_neg h2, if_pos h3]

lemma merge_loop_advance (verdict : Segment → Segment → Bool) (fuel : ℕ)
    (s1 s2 : Segment) (rest : List Segment)
    (h : py_strip s1.text = "" ∨ py_strip s2.text = "" ∨ 4 < s2.stop - s1.start ∨
      verdict s1 s2 = false) :
    merge_loop verdict (fuel + 1) (s1 :: s2 :: rest) =
      s1 :: merge_loop verdict fuel (s2 :: rest) := by
  simp only [merge_loop]
  rcases h with h | h | h | h
  · rw [if_pos (Or.inl h)]
  · rw [if_pos (Or.inr h)]
  · by_cases h0 : py_strip s1.text = "" ∨ py_strip s2.text = ""
    · rw [if_pos h0]
    · rw [if_neg h0, if_pos h]
  · by_cases h0 : py_strip s1.text = "" ∨ py_strip s2.text = ""
    · rw [if_pos h0]
    · rw [if_neg h0]
      by_cases h4 : 4 < s2.stop - s1.start
      · rw [if_pos h4]
      · rw [if_neg h4, if_neg (by simp [h])]

/-- C1 counterexample: the source returns `True` (merge) when the
LanguageModel response is the empty string, because `answer and (...)`
short-circuits on a falsy answer; the claim says an absent (empty-string)
response is treated as do-not-merge. -/
theorem should_merge_empty_response_merges : should_merge (some "") = true := by
  decide

/-- C1 (amended): an exception yields do-not-merge; an *empty* response
yields merge; a non-empty response yields do-not-merge exactly when it
contains "not" (case-insensitively) or "不", and merge otherwise. -/
theorem should_merge_verdict_characterization (a : String) (h : a ≠ "") :
    should_merge none = false ∧ should_merge (some "") = true ∧
    (should_merge (some a) = false ↔
      (contains_sub (py_lower a) "not" = true ∨ contains_sub a "不" = true)) := by
  refine ⟨rfl, by decide, ?_⟩
  have hs : should_merge (some a) =
      (if contains_sub (py_lower a) "not" || contains_sub a "不" then false
       else true) := by
    simp only [should_merge, if_neg h]
  rw [hs]
  rcases Bool.eq_false_or_eq_true (contains_sub (py_lower a) "not") with h1 | h1 <;>
    rcases Bool.eq_false_or_eq_true (contains_sub a "不") with h2 | h2 <;>
      simp [h1, h2]

/-- Witness for C1: the response `"No"` contains neither marker, so the
verdict is merge (the source's crude parsing misreads a bare refusal). -/
theorem should_merge_verdict_characterization_witness :
    ("No" : String) ≠ "" ∧
    (should_merge none = false ∧ should_merge (some "") = true ∧
      (should_merge (some "No") = false ↔
        (contains_sub (py_lower "No") "not" = true ∨
          contains_sub "No" "不" = true))) :=
  ⟨by decide, should_merge_verdict_characterization "No" (by decide)⟩

/-- C4 counterexample: the source joins the *stripped* texts, so merging
`"a "` with `"b"` yields `"a b"`, not the claimed
`seg1.text + " " + seg2.text = "a  b"`. -/
theorem merge_strips_texts_counterexample :
    (llm_merge_segments (fun _ _ => true)
        [⟨0, 1, "a ", ""⟩, ⟨1, 2, "b", ""⟩]).map Segment.text = ["a b"] ∧
    ("a b" : String) ≠ "a " ++ " " ++ "b" := by
  constructor
  · have h : llm_merge_segments (fun _ _ => true) [⟨0, 1, "a ", ""⟩, ⟨1, 2, "b", ""⟩]
        = merge_loop (fun _ _ => true) 1
            [merged_seg ⟨0, 1, "a ", ""⟩ ⟨1, 2, "b", ""⟩] := by
      show merge_loop _ 2 _ = _
      exact merge_loop_merge _ 1 _ _ _ (by decide)
        (by exact (by norm_num : ¬((4 : ℚ) < 2 - 0))) rfl
    rw [h]
    decide
  · decide

/-- C4 (amended): when both texts are non-blank, the duration is within the
cap and the verdict is positive, `seg[i]` is replaced by exactly
`{start := seg[i].start, stop := seg[i+1].stop,
text := strip(seg[i].text) ++ " " ++ strip(seg[i+1].text),
speaker := seg[i].speaker}`, `seg[i+1]` is removed, and the cursor does not
advance: the loop continues with the merged segment in cursor position. -/
theorem merge_step_amended (verdict : Segment → Segment → Bool) (fuel : ℕ)
    (s1 s2 : Segment) (rest : List Segment)
    (h1 : ¬(py_strip s1.text = "" ∨ py_strip s2.text = ""))
    (h2 : s2.stop - s1.start ≤ 4) (h3 : verdict s1 s2 = true) :
    merge_loop verdict (fuel + 1) (s1 :: s2 :: rest) =
      merge_loop verdict fuel
        (({ start := s1.start, stop := s2.stop,
            text := py_strip s1.text ++ " " ++ py_strip s2.text,
            speaker := s1.speaker } : Segment) :: rest) :=
  merge_loop_merge verdict fuel s1 s2 rest h1 (not_lt.mpr h2) h3

/-- Witness for C4 at concrete segments `(0,1,"a ")` and `(1,2,"b")`. -/
theorem merge_step_amended_witness :
    ¬(py_strip "a " = "" ∨ py_strip "b" = "") ∧ ((2 : ℚ) - 0 ≤ 4) ∧
    merge_loop (fun _ _ => true) 2 [⟨0, 1, "a ", ""⟩, ⟨1, 2, "b", ""⟩] =
      merge_loop (fun _ _ => true) 1 [⟨0, 2, "a b", ""⟩] :=
  ⟨by decide, by norm_num,
    merge_step_amended (fun _ _ => true) 1 ⟨0, 1, "a ", ""⟩ ⟨1, 2, "b", ""⟩ []
      (by decide) (by exact (by norm_num : (2 : ℚ) - 0 ≤ 4)) rfl⟩

/-! ### Grouping -/

lemma group_loop_join (rest : List Segment) :
    ∀ (curr : List Segment) (e : ℚ),
      (group_loop rest curr e).flatten = curr ++ rest := by
  induction rest with
  | nil =>
    intro curr e
    by_cases h : curr = [] <;> simp [group_loop, h]
  | cons seg rest ih =>
    intro curr e
    by_cases h : curr = []
    · simp [group_loop, h, ih]
    · by_cases h2 : seg.start < e <;> simp [group_loop, h, h2, ih]

/-- C10: the grouping pass partitions its input exactly — concatenating the
returned groups, in order, yields the input list. -/
theorem grouping_partition_exact (segments : List Segment) :
    (group_overlapping_segments segments).flatten = segments := by
  simpa [group_overlapping_segments] using group_loop_join segments [] 0

/-! ### CorrectionStage (`segmentation.llm_correct_segments`)

`resp i` is the `chat_llm` outcome for the call made at segment index `i`
(`none` models a raised exception, caught by the source's `try`).  The
second component logs, in order, the text of every segment for which the
LanguageModel was actually invoked; blank-text segments are passed through
and never trigger a call.  The prompt/context construction is not modelled
(no claim depends on it). -/

def llm_correct_go (resp : ℕ → Option String) :
    ℕ → List Segment → List Segment × List String
  | _, [] => ([], [])
  | i, s :: rest =>
    let next := llm_correct_go resp (i + 1) rest
    if py_strip s.text = "" then (s :: next.1, next.2)
    else
      let corrected_text :=
        match resp i with
        | none => s.text
        | some r => if r = "" then s.text else r
      ({ s with text := corrected_text } :: next.1, s.text :: next.2)

/-- Embeds `segmentation.llm_correct_segments` (segments and call log). -/
def llm_correct_segments (resp : ℕ → Option String) (segments : List Segment) :
    List Segment × List String :=
  llm_correct_go resp 0 segments

/-! ### TranslationStage (`translation.basic_translate_segments`)

The translate oracle is indexed by `(segment index, attempt)`; `none`
models a raised exception on that call, `some s` a returned string.  The
`asyncio` semaphore only schedules tasks, and `asyncio.gather` preserves
input order, so both modes are embedded as order-preserving maps.  Each
embedding also returns the log of texts passed to `translate_func`. -/

/-- Sync-mode per-segment retry (`while attempts < max_attempts` with
`max_attempts = 5`): returns the translation and the number of calls made.
On exhaustion the segment's original text is returned.  `fuel` is the
number of remaining permitted attempts, `attempts` the counter so far. -/
def sync_retry_go (tr : ℕ → Option String) (original : String) :
    ℕ → ℕ → String × ℕ
  | 0, attempts => (original, attempts)
  | fuel + 1, attempts =>
    match tr attempts with
    | some r => (r, attempts + 1)
    | none => sync_retry_go tr original fuel (attempts + 1)

def sync_retry (tr : ℕ → Option String) (original : String) : String × ℕ :=
  sync_retry_go tr original 5 0

def sync_translate_go (tr : ℕ → ℕ → Option String) :
    ℕ → List Segment → List String × List String
  | _, [] => ([], [])
  | i, s :: rest =>
    let res := sync_retry (tr i) s.text
    let next := sync_translate_go tr (i + 1) rest
    (res.1 :: next.1, List.replicate res.2 s.text ++ next.2)

/-- Embeds the sync branch of `translation.basic_translate_segments`. -/
def basic_translate_segments_sync (tr : ℕ → ℕ → Option String)
    (segments : List Segment) : List String × List String :=
  sync_translate_go tr 0 segments

/-- Async-mode per-segment task (`sem_translate` in the source,
`max_attempts = 5`): returns the translation, the number of attempts made,
and the backoff delays slept, in seconds — after a failing attempt whose
1-based number is `attempt`, the task sleeps `delay * 2 ^ (attempt - 1)`
with `delay = 1`.  On exhaustion the original text is returned. -/
def sem_translate_go (tr : ℕ → Option String) (text : String) :
    ℕ → ℕ → String × ℕ × List ℚ
  | 0, attempt => (text, attempt, [])
  | fuel + 1, attempt =>
    match tr attempt with
    | some r => (r, attempt + 1, [])
    | none =>
      let next := sem_translate_go tr text fuel (attempt + 1)
      (next.1, next.2.1, ((1 : ℚ) * 2 ^ (attempt + 1 - 1)) :: next.2.2)

def sem_translate (tr : ℕ → Option String) (text : String) :
    String × ℕ × List ℚ :=
  sem_translate_go tr text 5 0

def async_translate_go (tr : ℕ → ℕ → Option String) :
    ℕ → List Segment → List String × List String
  | _, [] => ([], [])
  | i, s :: rest =>
    let res := sem_translate (tr i) s.text
    let next := async_translate_go tr (i + 1) rest
    (res.1 :: next.1, List.replicate res.2.1 s.text ++ next.2)

/-- Embeds the async branch of `translation.basic_translate_segments`. -/
def basic_translate_segments_async (tr : ℕ → ℕ → Option String)
    (segments : List Segment) : List String × List String :=
  async_translate_go tr 0 segments

/-! ### OptimizationStage (`translation.optimize_translations_with_context`) -/

/-- Embeds `"\n".join(parts)`. -/
def join_nl : List String → String
  | [] => ""
  | [s] => s
  | s :: rest => s ++ "\n" ++ join_nl rest

/-- The context string built for index `i`: the `前文` part is the slice
`[max(0, i - r) : i]` of `pre_source`, the `后文` part is the slice
`[i + 1 : min(len, i + r + 1)]` of `suf_source` (Python slices, embedded
as `drop`/`take`); each part is included only under the source's guards
`i > 0` and `i < len - 1`. -/
def context_from (pre_source suf_source : List String) (len r i : ℕ) : String :=
  let pre := (pre_source.drop (i - r)).take (i - (i - r))
  let suf := (suf_source.drop (i + 1)).take (min len (i + r + 1) - (i + 1))
  join_nl ((if 0 < i then ["前文: " ++ join_nl pre] else []) ++
    (if i < len - 1 then ["后文: " ++ join_nl suf] else []))

/-- The source builds both slices from the current (mutated) array. -/
def build_context (bt : List String) (len r i : ℕ) : String :=
  context_from bt bt len r i

/-- Embeds Python `int(s)` on a decimal literal with optional sign
(ASCII model); `none` models `ValueError`. -/
def digits_val : List Char → ℕ → Option ℕ
  | [], acc => some acc
  | c :: cs, acc =>
    if c.isDigit then digits_val cs (acc * 10 + (c.toNat - 48)) else none

def py_int (s : String) : Option ℤ :=
  match (py_strip s).data with
  | [] => none
  | '-' :: cs => if cs = [] then none else (digits_val cs 0).map fun n => -(n : ℤ)
  | '+' :: cs => if cs = [] then none else (digits_val cs 0).map fun n => (n : ℤ)
  | cs => (digits_val cs 0).map fun n => (n : ℤ)

/-- Embeds `translation.optimize_translation` as a function of the
`chat_llm` response `resp`: an empty response falls back to the basic
translation. -/
def optimize_translation (resp basic_translation : String) : String :=
  if resp = "" then basic_translation else resp

/-- Embeds `translation.select_best_translation` as a function of the
`chat_llm` response `resp`: `int(resp.strip())` equal to 0 keeps the basic
translation, any other integer picks the optimized one, and a parse
failure (`ValueError`) keeps the basic translation. -/
def select_best_translation (resp basic_translation optimized_translation : String) :
    String :=
  match py_int resp with
  | some choice => if choice = 0 then basic_translation else optimized_translation
  | none => basic_translation

/-- One `use_llm` iteration's chosen text: optimize, then arbitrate only
when the candidate differs from the basic translation (source lines
407-410). -/
def choose_step (r1 r2 basic : String) : String :=
  let optimized := optimize_translation r1 basic
  if basic = optimized then optimized
  else select_best_translation r2 basic optimized

/-- Embeds the `for i in range(len(segments))` loop of
`translation.optimize_translations_with_context`.  `o1 i`/`o2 i` are the
`chat_llm` responses for the optimize and select calls at index `i`; `bt`
is the mutable `basic_translations` list, overwritten in place at index
`i` when `use_llm` is set.  Returns the final `basic_translations`, the
`final_segments`, and the log of context strings passed for each index. -/
def optimize_loop (o1 o2 : ℕ → String) (use_llm : Bool) (len r : ℕ) :
    List Segment → ℕ → List String → List String × List Segment × List String
  | [], _, bt => (bt, [], [])
  | seg :: todo, i, bt =>
    let basic_trans := bt.getD i ""
    let context_text := build_context bt len r i
    let optimized :=
      if use_llm then choose_step (o1 i) (o2 i) basic_trans else basic_trans
    let bt' := if use_llm then bt.set i optimized else bt
    let next := optimize_loop o1 o2 use_llm len r todo (i + 1) bt'
    (next.1,
     { start := seg.start, stop := seg.stop, text := optimized,
       speaker := seg.speaker } :: next.2.1,
     context_text :: next.2.2)

/-- Embeds `translation.optimize_translations_with_context`. -/
def optimize_translations_with_context (o1 o2 : ℕ → String) (use_llm : Bool)
    (r : ℕ) (segments : List Segment) (basic_translations : List String) :
    List String × List Segment × List String :=
  optimize_loop o1 o2 use_llm segments.length r segments 0 basic_translations

/-! ### C3: async per-segment retry -/

/-- C3 counterexample: with a translate function that raises on every
call, the async per-segment task makes exactly 5 attempts — not the 10
the claim states — and falls back to the original text. -/
theorem async_retry_five_not_ten :
    (sem_translate (fun _ => none) "hello").2.1 = 5 ∧
    (sem_translate (fun _ => none) "hello").1 = "hello" ∧ (5 : ℕ) ≠ 10 :=
  ⟨rfl, rfl, by decide⟩

/-- C3 (amended): for a translate function that raises on every call, the
async per-segment task makes exactly 5 attempts, sleeping
`1s * 2^(attempt-1)` after each failure (delays 1, 2, 4, 8, 16 seconds),
and the result is the segment's original text. -/
theorem async_retry_exhaustion (tr : ℕ → Option String) (text : String)
    (h : ∀ a, tr a = none) :
    sem_translate tr text = (text, 5, [1, 2, 4, 8, 16]) := by
  simp only [sem_translate, sem_translate_go, h]
  norm_num

/-- Witness for C3 at the always-raising oracle and text `"hello"`. -/
theorem async_retry_exhaustion_witness :
    (∀ a : ℕ, (fun _ : ℕ => (none : Option String)) a = none) ∧
    sem_translate (fun _ => none) "hello" = ("hello", 5, [1, 2, 4, 8, 16]) :=
  ⟨fun _ => rfl, async_retry_exhaustion (fun _ => none) "hello" (fun _ => rfl)⟩

/-! ### C2: which texts reach the external capabilities -/

/-- C2 counterexample: on a single segment with empty text, both
translation modes still pass the empty text to `translate_func` (the call
log is `[""]`), contradicting the claim that TranslationStage never
invokes the translate function on an empty-text segment. -/
theorem translate_invokes_on_empty_text :
    (basic_translate_segments_sync (fun _ _ => some "x") [⟨0, 1, "", ""⟩]).2
        = [""] ∧
    (basic_translate_segments_async (fun _ _ => some "x") [⟨0, 1, "", ""⟩]).2
        = [""] :=
  ⟨rfl, rfl⟩

lemma sync_retry_go_le (tr : ℕ → Option String) (original : String) :
    ∀ (fuel a : ℕ), a ≤ (sync_retry_go tr original fuel a).2 := by
  intro fuel
  induction fuel with
  | zero => intro a; simp [sync_retry_go]
  | succ n ih =>
    intro a
    simp only [sync_retry_go]
    cases h : tr a with
    | some r => simp
    | none => exact le_trans (Nat.le_succ a) (ih (a + 1))

lemma sync_retry_count_pos (tr : ℕ → Option String) (original : String) :
    1 ≤ (sync_retry tr original).2 := by
  simp only [sync_retry, sync_retry_go]
  cases h : tr 0 with
  | some r => simp
  | none => exact sync_retry_go_le tr original 4 1

lemma sem_translate_go_le (tr : ℕ → Option String) (text : String) :
    ∀ (fuel a : ℕ), a ≤ (sem_translate_go tr text fuel a).2.1 := by
  intro fuel
  induction fuel with
  | zero => intro a; simp [sem_translate_go]
  | succ n ih =>
    intro a
    simp only [sem_translate_go]
    cases h : tr a with
    | some r => simp
    | none => exact le_trans (Nat.le_succ a) (ih (a + 1))

lemma sem_translate_count_pos (tr : ℕ → Option String) (text : String) :
    1 ≤ (sem_translate tr text).2.1 := by
  simp only [sem_translate, sem_translate_go]
  cases h : tr 0 with
  | some r => simp
  | none => exact sem_translate_go_le tr text 4 1

lemma mem_sync_translate_log (tr : ℕ → ℕ → Option String) (seg : Segment) :
    ∀ (segs : List Segment) (i : ℕ), seg ∈ segs →
      seg.text ∈ (sync_translate_go tr i segs).2 := by
  intro segs
  induction segs with
  | nil => intro i h; cases h
  | cons s rest ih =>
    intro i h
    simp only [sync_translate_go]
    rcases List.mem_cons.mp h with rfl | h2
    · refine List.mem_append.mpr (Or.inl (List.mem_replicate.mpr ⟨?_, rfl⟩))
      have := sync_retry_count_pos (tr i) seg.text
      omega
    · exact List.mem_append.mpr (Or.inr (ih (i + 1) h2))

lemma mem_async_translate_log (tr : ℕ → ℕ → Option String) (seg : Segment) :
    ∀ (segs : List Segment) (i : ℕ), seg ∈ segs →
      seg.text ∈ (async_translate_go tr i segs).2 := by
  intro segs
  induction segs with
  | nil => intro i h; cases h
  | cons s rest ih =>
    intro i h
    simp only [async_translate_go]
    rcases List.mem_cons.mp h with rfl | h2
    · refine List.mem_append.mpr (Or.inl (List.mem_replicate.mpr ⟨?_, rfl⟩))
      have := sem_translate_count_pos (tr i) seg.text
      omega
    · exact List.mem_append.mpr (Or.inr (ih (i + 1) h2))

lemma correct_log_nonblank (resp : ℕ → Option String) :
    ∀ (segs : List Segment) (i : ℕ) (t : String),
      t ∈ (llm_correct_go resp i segs).2 → py_strip t ≠ "" := by
  intro segs
  induction segs with
  | nil => intro i t h; simp [llm_correct_go] at h
  | cons s rest ih =>
    intro i t h
    simp only [llm_correct_go] at h
    by_cases hb : py_strip s.text = ""
    · rw [if_pos hb] at h
      exact ih (i + 1) t h
    · rw [if_neg hb] at h
      rcases List.mem_cons.mp h with rfl | h2
      · exact hb
      · exact ih (i + 1) t h2

/-- C2 (amended): the CorrectionStage skips blank-text segments — every
text it passes to the LanguageModel is non-blank — but TranslationStage
passes *every* segment's text to the translate function, empty or not, in
both async and sync mode.  (The bundled `niutrans_translate` then returns
`""` itself on blank input before contacting the service.) -/
theorem empty_text_call_discipline (segs : List Segment)
    (resp : ℕ → Option String) (trS trA : ℕ → ℕ → Option String)
    (seg : Segment) (t : String) (hseg : seg ∈ segs)
    (ht : t ∈ (llm_correct_segments resp segs).2) :
    py_strip t ≠ "" ∧
    seg.text ∈ (basic_translate_segments_sync trS segs).2 ∧
    seg.text ∈ (basic_translate_segments_async trA segs).2 :=
  ⟨correct_log_nonblank resp segs 0 t ht,
   mem_sync_translate_log trS seg segs 0 hseg,
   mem_async_translate_log trA seg segs 0 hseg⟩

/-- Witness for C2 on a one-segment list with text `"a"`. -/
theorem empty_text_call_discipline_witness :
    ((⟨0, 1, "a", ""⟩ : Segment) ∈ ([⟨0, 1, "a", ""⟩] : List Segment)) ∧
    ("a" ∈ (llm_correct_segments (fun _ => some "ok") [⟨0, 1, "a", ""⟩]).2) ∧
    (py_strip "a" ≠ "" ∧
      (⟨0, 1, "a", ""⟩ : Segment).text ∈
        (basic_translate_segments_sync (fun _ _ => some "x")
          [⟨0, 1, "a", ""⟩]).2 ∧
      (⟨0, 1, "a", ""⟩ : Segment).text ∈
        (basic_translate_segments_async (fun _ _ => some "x")
          [⟨0, 1, "a", ""⟩]).2) :=
  ⟨List.mem_singleton.mpr rfl, by decide,
   empty_text_call_discipline [⟨0, 1, "a", ""⟩] (fun _ => some "ok")
     (fun _ _ => some "x") (fun _ _ => some "x") ⟨0, 1, "a", ""⟩ "a"
     (List.mem_singleton.mpr rfl) (by decide)⟩

/-! ### C5: the left/right context asymmetry (refinement spec)

The following definitions restate the claim's words, to be compared with
the loop embedding: the value chosen for index `i` depends only on the
oracles and the original basic translation at `i`; the context for `i` is
built from the *chosen* values on `[max(0, i - r), i - 1]` and from the
*original* basic translations on `[i + 1, min(len, i + r)]`. -/

def chosen_at (o1 o2 : ℕ → String) (bt0 : List String) (i : ℕ) : String :=
  choose_step (o1 i) (o2 i) (bt0.getD i "")

/-- The chosen optimized values for indices `0 .. n-1`, per the claim. -/
def spec_chosen_list (o1 o2 : ℕ → String) (bt0 : List String) : ℕ → List String
  | 0 => []
  | n + 1 => spec_chosen_list o1 o2 bt0 n ++ [chosen_at o1 o2 bt0 n]

/-- The claim's context for index `i`: prefix slice from the already-chosen
values, suffix slice from the original basic translations. -/
def spec_context (o1 o2 : ℕ → String) (bt0 : List String) (len r i : ℕ) : String :=
  context_from (spec_chosen_list o1 o2 bt0 i) bt0 len r i

/-- The claim's final segments: timing and speaker preserved, text the
chosen value for the segment's index. -/
def spec_final (o1 o2 : ℕ → String) (bt0 : List String) :
    ℕ → List Segment → List Segment
  | _, [] => []
  | i, s :: rest =>
    { start := s.start, stop := s.stop, text := chosen_at o1 o2 bt0 i,
      speaker := s.speaker } :: spec_final o1 o2 bt0 (i + 1) rest

lemma spec_chosen_list_length (o1 o2 : ℕ → String) (bt0 : List String) :
    ∀ n, (spec_chosen_list o1 o2 bt0 n).length = n := by
  intro n
  induction n with
  | zero => rfl
  | succ n ih => simp [spec_chosen_list, ih]

lemma drop_take_append {α : Type} (A B : List α) (m n : ℕ)
    (hm : m ≤ A.length) (hn : n + m ≤ A.length) :
    ((A ++ B).drop m).take n = (A.drop m).take n := by
  rw [List.drop_append_eq_append_drop, Nat.sub_eq_zero_of_le hm, List.drop_zero,
    List.take_append_eq_append_take]
  have h0 : n - (A.drop m).length = 0 := by
    rw [List.length_drop]; omega
  rw [h0, List.take_zero, List.append_nil]

lemma drop_append_ge {α : Type} (A B : List α) (m : ℕ) (hm : A.length ≤ m) :
    (A ++ B).drop m = B.drop (m - A.length) := by
  rw [List.drop_append_eq_append_drop, List.drop_eq_nil_of_le hm, List.nil_append]

lemma set_append_length_left {α : Type} (A B : List α) (v : α) :
    (A ++ B).set A.length v = A ++ B.set 0 v := by
  induction A with
  | nil => rfl
  | cons a A ih =>
    simp only [List.cons_append, List.length_cons, List.set]
    exact congrArg (a :: ·) ih

lemma set_append_of_length {α : Type} (A B : List α) (i : ℕ) (h : A.length = i)
    (v : α) : (A ++ B).set i v = A ++ B.set 0 v := by
  subst h
  exact set_append_length_left A B v

/-- Invariant of the optimization loop in `use_llm` mode: starting at index
`i` with the mutable array holding the chosen values below `i` and the
original basic translations from `i` on, every emitted context is the
claim's context, the final texts are the chosen values, and the array ends
fully overwritten. -/
lemma optimize_loop_spec (o1 o2 : ℕ → String) (r : ℕ) (bt0 : List String) :
    ∀ (todo : List Segment) (i : ℕ), i + todo.length = bt0.length →
      optimize_loop o1 o2 true bt0.length r todo i
          (spec_chosen_list o1 o2 bt0 i ++ bt0.drop i) =
        (spec_chosen_list o1 o2 bt0 bt0.length,
         spec_final o1 o2 bt0 i todo,
         (List.range' i todo.length).map (spec_context o1 o2 bt0 bt0.length r)) := by
  intro todo
  induction todo with
  | nil =>
    intro i hi
    simp only [List.length_nil, Nat.add_zero] at hi
    subst hi
    simp [optimize_loop, spec_final, List.drop_length, List.range']
  | cons s todo ih =>
    intro i hi
    have hilt : i < bt0.length := by
      simp only [List.length_cons] at hi; omega
    have hlenc : (spec_chosen_list o1 o2 bt0 i).length = i :=
      spec_chosen_list_length o1 o2 bt0 i
    have hbasic : (spec_chosen_list o1 o2 bt0 i ++ bt0.drop i).getD i ""
        = bt0.getD i "" := by
      rw [List.getD_append_right _ _ _ _ (le_of_eq hlenc), hlenc, Nat.sub_self,
        List.getD_eq_getElem?_getD, List.getElem?_drop, Nat.add_zero,
        ← List.getD_eq_getElem?_getD]
    have hpre : ((spec_chosen_list o1 o2 bt0 i ++ bt0.drop i).drop (i - r)).take
          (i - (i - r))
        = ((spec_chosen_list o1 o2 bt0 i).drop (i - r)).take (i - (i - r)) := by
      apply drop_take_append
      · rw [hlenc]; omega
      · rw [hlenc]; omega
    have hsuf : (spec_chosen_list o1 o2 bt0 i ++ bt0.drop i).drop (i + 1)
        = bt0.drop (i + 1) := by
      rw [drop_append_ge _ _ _ (by rw [hlenc]; omega), hlenc,
        (by omega : i + 1 - i = 1), List.drop_drop]
    have hctx : build_context (spec_chosen_list o1 o2 bt0 i ++ bt0.drop i)
          bt0.length r i
        = spec_context o1 o2 bt0 bt0.length r i := by
      simp only [build_context, spec_context, context_from, hpre, hsuf]
    have hset : (spec_chosen_list o1 o2 bt0 i ++ bt0.drop i).set i
          (chosen_at o1 o2 bt0 i)
        = spec_chosen_list o1 o2 bt0 (i + 1) ++ bt0.drop (i + 1) := by
      rw [set_append_of_length _ _ _ hlenc, List.drop_eq_getElem_cons hilt]
      simp [spec_chosen_list, List.set]
    have hnext := ih (i + 1) (by simp only [List.length_cons] at hi; omega)
    simp only [optimize_loop, if_true, hbasic, hctx]
    rw [show choose_step (o1 i) (o2 i) (bt0.getD i "") = chosen_at o1 o2 bt0 i
        from rfl, hset, hnext]
    simp only [spec_final, List.length_cons, List.range'_succ, List.map_cons]

lemma spec_chosen_list_eq_map (o1 o2 : ℕ → String) (bt0 : List String) :
    ∀ n, spec_chosen_list o1 o2 bt0 n = (List.range n).map (chosen_at o1 o2 bt0) := by
  intro n
  induction n with
  | zero => rfl
  | succ n ih => simp [spec_chosen_list, List.range_succ, ih]

lemma spec_final_map_text (o1 o2 : ℕ → String) (bt0 : List String) :
    ∀ (todo : List Segment) (i : ℕ),
      (spec_final o1 o2 bt0 i todo).map Segment.text =
        (List.range' i todo.length).map (chosen_at o1 o2 bt0) := by
  intro todo
  induction todo with
  | nil => intro i; rfl
  | cons s rest ih =>
    intro i
    simp [spec_final, List.range'_succ, ih (i + 1)]

/-- C5: with `use_llm` set, the context logged for index `i` is the claim's
context — prefix entries already overwritten by the chosen optimized
values of earlier iterations, suffix entries still the first-pass basic
translations — and the final texts are exactly those chosen values. -/
theorem optimization_context_asymmetry (o1 o2 : ℕ → String)
    (segs : List Segment) (bt0 : List String) (r : ℕ)
    (hbt : bt0.length = segs.length) :
    (optimize_translations_with_context o1 o2 true r segs bt0).2.2 =
      (List.range segs.length).map (spec_context o1 o2 bt0 segs.length r) ∧
    (optimize_translations_with_context o1 o2 true r segs bt0).2.1.map
        Segment.text = spec_chosen_list o1 o2 bt0 segs.length := by
  simp only [optimize_translations_with_context]
  rw [← hbt]
  have h0 : spec_chosen_list o1 o2 bt0 0 ++ bt0.drop 0 = bt0 := by
    simp [spec_chosen_list]
  have key := optimize_loop_spec o1 o2 r bt0 segs 0 (by omega)
  rw [h0] at key
  have hlen : segs.length = bt0.length := hbt.symm
  rw [show optimize_loop o1 o2 true bt0.length r segs 0 bt0
      = optimize_loop o1 o2 true bt0.length r segs 0 bt0 from rfl, key]
  constructor
  · simp only [List.range_eq_range']
    rw [hlen]
  · rw [spec_final_map_text, hlen, ← List.range_eq_range',
      ← spec_chosen_list_eq_map]

/-- Witness for C5 on two segments, basics `["x", "y"]`, constant oracles. -/
theorem optimization_context_asymmetry_witness :
    (["x", "y"] : List String).length =
      ([⟨0, 1, "a", ""⟩, ⟨1, 2, "b", ""⟩] : List Segment).length ∧
    ((optimize_translations_with_context (fun _ => "opt") (fun _ => "1") true 10
        [⟨0, 1, "a", ""⟩, ⟨1, 2, "b", ""⟩] ["x", "y"]).2.2 =
      (List.range ([⟨0, 1, "a", ""⟩, ⟨1, 2, "b", ""⟩] : List Segment).length).map
        (spec_context (fun _ => "opt") (fun _ => "1") ["x", "y"]
          ([⟨0, 1, "a", ""⟩, ⟨1, 2, "b", ""⟩] : List Segment).length 10) ∧
    (optimize_translations_with_context (fun _ => "opt") (fun _ => "1") true 10
        [⟨0, 1, "a", ""⟩, ⟨1, 2, "b", ""⟩] ["x", "y"]).2.1.map Segment.text =
      spec_chosen_list (fun _ => "opt") (fun _ => "1") ["x", "y"]
        ([⟨0, 1, "a", ""⟩, ⟨1, 2, "b", ""⟩] : List Segment).length) :=
  ⟨rfl, optimization_context_asymmetry (fun _ => "opt") (fun _ => "1")
    [⟨0, 1, "a", ""⟩, ⟨1, 2, "b", ""⟩] ["x", "y"] 10 rfl⟩

/-! ### C6: length preservation -/

lemma sync_translate_go_length (tr : ℕ → ℕ → Option String) :
    ∀ (segs : List Segment) (i : ℕ),
      (sync_translate_go tr i segs).1.length = segs.length := by
  intro segs
  induction segs with
  | nil => intro i; rfl
  | cons s rest ih =>
    intro i
    simp only [sync_translate_go, List.length_cons, ih (i + 1)]

lemma async_translate_go_length (tr : ℕ → ℕ → Option String) :
    ∀ (segs : List Segment) (i : ℕ),
      (async_translate_go tr i segs).1.length = segs.length := by
  intro segs
  induction segs with
  | nil => intro i; rfl
  | cons s rest ih =>
    intro i
    simp only [async_translate_go, List.length_cons, ih (i + 1)]

lemma optimize_loop_length (o1 o2 : ℕ → String) (use_llm : Bool) (len r : ℕ) :
    ∀ (todo : List Segment) (i : ℕ) (bt : List String),
      (optimize_loop o1 o2 use_llm len r todo i bt).2.1.length = todo.length := by
  intro todo
  induction todo with
  | nil => intro i bt; rfl
  | cons s rest ih =>
    intro i bt
    simp only [optimize_loop, List.length_cons, ih (i + 1)]

/-- C6: both translation modes return one translation per input segment,
index-aligned by construction, and the optimization stage returns one
final segment per input segment — for every oracle behaviour, i.e.
regardless of which external calls fail. -/
theorem stage_length_preservation (segs : List Segment)
    (trS trA : ℕ → ℕ → Option String) (o1 o2 : ℕ → String)
    (use_llm : Bool) (r : ℕ) (bt : List String)
    (hbt : bt.length = segs.length) :
    (basic_translate_segments_sync trS segs).1.length = segs.length ∧
    (basic_translate_segments_async trA segs).1.length = segs.length ∧
    (optimize_translations_with_context o1 o2 use_llm r segs bt).2.1.length
      = segs.length :=
  ⟨sync_translate_go_length trS segs 0, async_translate_go_length trA segs 0,
   optimize_loop_length o1 o2 use_llm segs.length r segs 0 bt⟩

/-- Witness for C6 on a one-segment list with an always-raising translator
and empty-response LLM oracles. -/
theorem stage_length_preservation_witness :
    (["x"] : List String).length = ([⟨0, 1, "a", ""⟩] : List Segment).length ∧
    ((basic_translate_segments_sync (fun _ _ => none) [⟨0, 1, "a", ""⟩]).1.length
        = ([⟨0, 1, "a", ""⟩] : List Segment).length ∧
    (basic_translate_segments_async (fun _ _ => none) [⟨0, 1, "a", ""⟩]).1.length
        = ([⟨0, 1, "a", ""⟩] : List Segment).length ∧
    (optimize_translations_with_context (fun _ => "") (fun _ => "") true 10
        [⟨0, 1, "a", ""⟩] ["x"]).2.1.length
        = ([⟨0, 1, "a", ""⟩] : List Segment).length) :=
  ⟨rfl, stage_length_preservation [⟨0, 1, "a", ""⟩] (fun _ _ => none)
    (fun _ _ => none) (fun _ => "") (fun _ => "") true 10 ["x"] rfl⟩

/-! ### Language-code normalization (`utils.py`) -/

/-- The Google-style mapping table of
`utils.normalize_language_code_for_google`. -/
def google_mapping : List (String × String) :=
  [("arabic", "ar"), ("ar", "ar"), ("czech", "cs"), ("cs", "cs"),
   ("danish", "da"), ("da", "da"), ("dutch", "nl"), ("nl", "nl"),
   ("english", "en"), ("en", "en"), ("finnish", "fi"), ("fi", "fi"),
   ("french", "fr"), ("fr", "fr"), ("german", "de"), ("de", "de"),
   ("greek", "el"), ("el", "el"), ("hebrew", "iw"), ("iw", "iw"),
   ("hindi", "hi"), ("hi", "hi"), ("hungarian", "hu"), ("hu", "hu"),
   ("indonesian", "id"), ("id", "id"), ("italian", "it"), ("it", "it"),
   ("japanese", "ja"), ("ja", "ja"), ("korean", "ko"), ("ko", "ko"),
   ("norwegian", "no"), ("no", "no"), ("polish", "pl"), ("pl", "pl"),
   ("portuguese", "pt"), ("pt", "pt"), ("romanian", "ro"), ("ro", "ro"),
   ("russian", "ru"), ("ru", "ru"), ("slovak", "sk"), ("sk", "sk"),
   ("spanish", "es"), ("es", "es"), ("swedish", "sv"), ("sv", "sv"),
   ("thai", "th"), ("th", "th"), ("turkish", "tr"), ("tr", "tr"),
   ("ukrainian", "uk"), ("uk", "uk"), ("vietnamese", "vi"), ("vi", "vi"),
   ("chinese", "zh-cn"), ("zh", "zh-cn"), ("zh-cn", "zh-cn"),
   ("zh_tw", "zh-tw"), ("taiwanese", "zh-tw")]

/-- The mapping table of `utils.normalize_language_code_for_api`. -/
def api_mapping : List (String × String) :=
  [("arabic", "ar"), ("ar", "ar"), ("czech", "cs"), ("cs", "cs"),
   ("danish", "da"), ("da", "da"), ("dutch", "nl"), ("nl", "nl"),
   ("english", "en"), ("en", "en"), ("finnish", "fi"), ("fi", "fi"),
   ("french", "fr"), ("fr", "fr"), ("german", "de"), ("de", "de"),
   ("greek", "el"), ("el", "el"), ("hebrew", "he"), ("he", "he"),
   ("hindi", "hi"), ("hi", "hi"), ("hungarian", "hu"), ("hu", "hu"),
   ("indonesian", "id"), ("id", "id"), ("italian", "it"), ("it", "it"),
   ("japanese", "ja"), ("ja", "ja"), ("korean", "ko"), ("ko", "ko"),
   ("norwegian", "no"), ("no", "no"), ("polish", "pl"), ("pl", "pl"),
   ("portuguese", "pt"), ("pt", "pt"), ("romanian", "ro"), ("ro", "ro"),
   ("russian", "ru"), ("ru", "ru"), ("slovak", "sk"), ("sk", "sk"),
   ("spanish", "es"), ("es", "es"), ("swedish", "sv"), ("sv", "sv"),
   ("thai", "th"), ("th", "th"), ("turkish", "tr"), ("tr", "tr"),
   ("ukrainian", "uk"), ("uk", "uk"), ("vietnamese", "vi"), ("vi", "vi"),
   ("chinese", "zh"), ("zh", "zh"), ("zh-cn", "zh"),
   ("zh_tw", "zh-tw"), ("taiwanese", "zh-tw")]

/-- Embeds `utils.normalize_language_code_for_google`:
`lang = lang.lower().strip()`, then `mapping.get(lang, lang)`. -/
def normalize_language_code_for_google (lang : String) : String :=
  let l := py_strip (py_lower lang)
  (google_mapping.lookup l).getD l

/-- Embeds `utils.normalize_language_code_for_api`. -/
def normalize_language_code_for_api (lang : String) : String :=
  let l := py_strip (py_lower lang)
  (api_mapping.lookup l).getD l

/-- C8 counterexample: `"FOO"` is a key of neither table, yet both
normalizers return `"foo"` — the lowered form — not the identifier
unchanged, because lowering and stripping happen before the lookup. -/
theorem normalize_lowercases_counterexample :
    google_mapping.lookup "FOO" = none ∧ api_mapping.lookup "FOO" = none ∧
    normalize_language_code_for_google "FOO" = "foo" ∧
    normalize_language_code_for_api "FOO" = "foo" ∧
    ("foo" : String) ≠ "FOO" := by
  refine ⟨?_, ?_, ?_, ?_, ?_⟩ <;> decide

/-- C8 (amended): the identifier is first lowercased and stripped; when the
*normalized* form is not a key of the table, that normalized form is
returned — so an identifier that is already lowercase and trimmed passes
through unchanged when unmapped. -/
theorem normalize_passthrough_amended (lang : String)
    (hg : google_mapping.lookup (py_strip (py_lower lang)) = none)
    (ha : api_mapping.lookup (py_strip (py_lower lang)) = none) :
    normalize_language_code_for_google lang = py_strip (py_lower lang) ∧
    normalize_language_code_for_api lang = py_strip (py_lower lang) ∧
    (py_strip (py_lower lang) = lang →
      normalize_language_code_for_google lang = lang ∧
      normalize_language_code_for_api lang = lang) := by
  refine ⟨?_, ?_, fun hid => ?_⟩
  · simp only [normalize_language_code_for_google, hg, Option.getD_none]
  · simp only [normalize_language_code_for_api, ha, Option.getD_none]
  · rw [hid] at hg ha
    constructor
    · simp only [normalize_language_code_for_google, hid, hg, Option.getD_none]
    · simp only [normalize_language_code_for_api, hid, ha, Option.getD_none]

/-- Witness for C8 at the unmapped identifier `"xx"` (already lowercase and
trimmed). -/
theorem normalize_passthrough_amended_witness :
    google_mapping.lookup (py_strip (py_lower "xx")) = none ∧
    api_mapping.lookup (py_strip (py_lower "xx")) = none ∧
    (normalize_language_code_for_google "xx" = py_strip (py_lower "xx") ∧
      normalize_language_code_for_api "xx" = py_strip (py_lower "xx") ∧
      (py_strip (py_lower "xx") = "xx" →
        normalize_language_code_for_google "xx" = "xx" ∧
        normalize_language_code_for_api "xx" = "xx")) :=
  ⟨by decide, by decide,
   normalize_passthrough_amended "xx" (by decide) (by decide)⟩
